import Mathlib

/-!
Shallow embedding of the label-classification core of the `problem_report`
repository: `src/processing/classify.py`, `src/processing/translate.py` and
`src/processing/assemble_data.py`.

Modelling conventions:
* Python strings are Lean `String`s; `str.strip()` is `pyStrip` (drop
  whitespace on both ends of the character list) and `str.lower()` is
  `pyLower` (`Char.toLower` per character; Python additionally lowercases
  non-ASCII letters, which no statement below depends on).
* `"|".join(xs)` is `pyJoin "|" xs`.
* A pandas cell of the text column is `Option String`: `none` models a
  missing value (`pd.notna` false), `some s` models a cell whose `str()` is
  `s`.
* The classification oracle `chat_complete_ex` followed by
  `_safe_json_loads` and `data.get("problem_ids", [])` is modelled at the
  parsed level by `OracleReply`: the body distinguishes a raised JSON parse
  error, a parsed object without the `problem_ids` key, a non-list value
  under that key, and a list of items (numeric or not).
* `_hash_text` (truncated SHA-256) is abstracted as a `hash : String →
  String` parameter applied to the exact pre-hash string
  `t ++ "|" ++ "|".join(problems_ru)` built at classify.py line 111.
* The cache dict is an association list; `cacheInsert` is dict assignment,
  `cacheFind` is dict lookup.
* Exceptions escaping `classify_dataframe` are `Except.error ()`.
-/

namespace ProblemReport

/-- Python `str.strip()`: drop whitespace from both ends. -/
def pyStrip (s : String) : String :=
  ⟨((s.data.dropWhile Char.isWhitespace).reverse.dropWhile Char.isWhitespace).reverse⟩

/-- Python `str.lower()` (ASCII-accurate; see file header note). -/
def pyLower (s : String) : String :=
  ⟨s.data.map Char.toLower⟩

/-- Python `sep.join(xs)`. -/
def pyJoin (sep : String) : List String → String
  | [] => ""
  | [x] => x
  | x :: y :: ys => x ++ sep ++ pyJoin sep (y :: ys)

/-- Token-usage triple accumulated by `classify_dataframe` (classify.py line 79). -/
structure Usage where
  prompt_tokens : Nat
  completion_tokens : Nat
  total_tokens : Nat
deriving DecidableEq

/-- The zero usage total `{"prompt_tokens": 0, "completion_tokens": 0, "total_tokens": 0}`. -/
def Usage.zero : Usage := ⟨0, 0, 0⟩

/-- Pointwise accumulation of usage counters (classify.py lines 120-122). -/
def Usage.add (u v : Usage) : Usage :=
  ⟨u.prompt_tokens + v.prompt_tokens,
   u.completion_tokens + v.completion_tokens,
   u.total_tokens + v.total_tokens⟩

/-- One element of the parsed `problem_ids` JSON list: a numeric item
(`int` or `float`, already coerced by `int(i)`) or a non-numeric item that
`isinstance(i, (int, float))` rejects (classify.py line 125). -/
inductive JItem where
  | num (n : Int)
  | other
deriving DecidableEq

/-- Whether a parsed list item passes the `isinstance(i, (int, float))` filter. -/
def JItem.isNum : JItem → Bool
  | .num _ => true
  | .other => false

/-- Outcome of `_safe_json_loads(resp_text)` followed by
`data.get("problem_ids", [])` (classify.py lines 117-118):
`parseError` models `json.loads` raising, `missing` a parsed object without
the `problem_ids` key, `notList` a non-list value under the key, and
`list xs` a JSON list. -/
inductive OracleIds where
  | parseError
  | missing
  | notList
  | list (xs : List JItem)
deriving DecidableEq

/-- One oracle call result: parsed body plus the usage counters returned by
`chat_complete_ex`. -/
structure OracleReply where
  body : OracleIds
  usage : Usage
deriving DecidableEq

/-- Raw id list extraction: `none` when `_safe_json_loads` raises;
otherwise the list after `data.get("problem_ids", [])` and the
`if not isinstance(ids, list): ids = []` normalization (classify.py
lines 117-124). -/
def rawIds : OracleIds → Option (List JItem)
  | .parseError => none
  | .missing => some []
  | .notList => some []
  | .list xs => some xs

/-- The list comprehension `[int(i) for i in ids if isinstance(i, (int, float))]`
(classify.py line 125). -/
def numericIds (xs : List JItem) : List Int :=
  xs.filterMap fun it =>
    match it with
    | .num n => some n
    | .other => none

/-- The string hashed by `_hash_text` at classify.py line 111:
`t + "|" + "|".join(problems_ru)`. -/
def fingerprintInput (t : String) (problems_ru : List String) : String :=
  t ++ "|" ++ pyJoin "|" problems_ru

/-- The cache key `_hash_text(t + "|" + "|".join(problems_ru))`, with the
truncated SHA-256 digest abstracted as `hash`. -/
def fingerprint (hash : String → String) (t : String) (problems_ru : List String) : String :=
  hash (fingerprintInput t problems_ru)

/-- Two (text, vocabulary) pairs receive the same cache key under every
digest function: their pre-hash strings coincide. -/
def fingerprintCollision (t₁ : String) (V₁ : List String) (t₂ : String) (V₂ : List String) : Prop :=
  ∀ hash : String → String, fingerprint hash t₁ V₁ = fingerprint hash t₂ V₂

/-- The classification cache dict `fingerprint → ids` as an association list. -/
abbrev Cache := List (String × List Int)

/-- Dict lookup `cache[key]` / `key in cache` (classify.py lines 112-113). -/
def cacheFind (c : Cache) (k : String) : Option (List Int) :=
  match c.find? (fun p => p.1 == k) with
  | some p => some p.2
  | none => none

/-- Dict assignment `cache[key] = ids` (classify.py line 127). -/
def cacheInsert (c : Cache) (k : String) (v : List Int) : Cache :=
  match c with
  | [] => [(k, v)]
  | p :: rest => if p.1 == k then (k, v) :: rest else p :: cacheInsert rest k v

/-- Cache startup (classify.py lines 93-96): `none` models an absent cache
file, `some (.error ())` a file whose `json.loads` raises, `some (.ok c)` a
readable file; the first two degrade to the empty cache. -/
def initCache : Option (Except Unit Cache) → Cache
  | none => []
  | some (.error _) => []
  | some (.ok c) => c

/-- Base-language labels for one row (classify.py lines 129-130):
`[problems_index_to_ru.get(i, "") for i in ids if i in problems_index_to_ru]`
followed by `[s for s in ru_labels if s]`, where `problems_index_to_ru`
maps `i+1 ↦ problems_ru[i]`. -/
def ruLabels (problems_ru : List String) (ids : List Int) : List String :=
  ((ids.filter fun i => decide (1 ≤ i ∧ i ≤ (problems_ru.length : Int))).map
      fun i => problems_ru.getD (i - 1).toNat "").filter fun s => s ≠ ""

/-- Per-language labels for one row (classify.py lines 136-137):
`[translations.get(ru, {}).get(lang, "") for ru in ru_labels]` followed by
the empty-string filter; `T ru lang` is the dict-of-dicts lookup with
default `""`. -/
def langLabels (T : String → String → String) (lang : String) (rus : List String) : List String :=
  (rus.map fun ru => T ru lang).filter fun s => s ≠ ""

/-- The values appended for one row: base-language candidates and first
choice, plus per-language candidates and first choice aligned with `langs`. -/
structure RowOut where
  candidates_ru : String
  first_ru : String
  per_lang : List (String × String)
deriving DecidableEq

/-- Row output for a blank or missing text (classify.py lines 103-109). -/
def blankRow (langs : List String) : RowOut :=
  ⟨"", "", langs.map fun _ => ("", "")⟩

/-- Row output computed from a resolved id sequence (classify.py
lines 129-139). -/
def mkRow (problems_ru : List String) (T : String → String → String)
    (langs : List String) (ids : List Int) : RowOut :=
  let rus := ruLabels problems_ru ids
  ⟨pyJoin "|" rus, rus.headD "",
   langs.map fun lang =>
     let ls := langLabels T lang rus
     (pyJoin "|" ls, ls.headD "")⟩

/-- Mutable state threaded through the row loop: the cache dict, the usage
totals, and (instrumentation for the oracle-call contract) the number of
`chat_complete_ex` invocations performed so far. -/
structure RunState where
  cache : Cache
  usage : Usage
  calls : Nat
deriving DecidableEq

/-- One iteration of the row loop of `classify_dataframe` (classify.py
lines 100-139). `oracle` maps the stripped text to the parsed reply of
`chat_complete_ex` on the prompt built for it; `.error ()` is the JSON
parse exception escaping the loop. -/
def processRow (oracle : String → OracleReply) (problems_ru : List String)
    (T : String → String → String) (langs : List String) (maxLabels : Nat)
    (hash : String → String) (st : RunState) (cell : Option String) :
    Except Unit (RunState × RowOut) :=
  let text_raw := cell.getD ""
  let t := pyStrip text_raw
  if t = "" then
    .ok (st, blankRow langs)
  else
    let key := fingerprint hash t problems_ru
    match cacheFind st.cache key with
    | some ids => .ok (st, mkRow problems_ru T langs ids)
    | none =>
      let reply := oracle t
      match rawIds reply.body with
      | none => .error ()
      | some xs =>
        let ids := (numericIds xs).take maxLabels
        .ok (⟨cacheInsert st.cache key ids, st.usage.add reply.usage, st.calls + 1⟩,
             mkRow problems_ru T langs ids)

/-- The whole row loop: processes cells in order, threading the state; a
raised parse error aborts the remaining rows (classify.py lines 100-139). -/
def runRows (oracle : String → OracleReply) (problems_ru : List String)
    (T : String → String → String) (langs : List String) (maxLabels : Nat)
    (hash : String → String) :
    RunState → List (Option String) → Except Unit (RunState × List RowOut)
  | st, [] => .ok (st, [])
  | st, c :: cs =>
    match processRow oracle problems_ru T langs maxLabels hash st c with
    | .error e => .error e
    | .ok (st', out) =>
      match runRows oracle problems_ru T langs maxLabels hash st' cs with
      | .error e => .error e
      | .ok (st'', outs) => .ok (st'', out :: outs)

/-- A pandas cell, as read by the row loop: `none` for a missing value,
`some s` for a cell whose `str()` is `s`. -/
abbrev Cell := Option String

/-- A dataframe as an ordered list of named columns. -/
structure DataFrame where
  cols : List (String × List Cell)
deriving DecidableEq

/-- Column read access `df[name]` (empty when the column is absent; all
uses below require presence). -/
def DataFrame.getCol (df : DataFrame) (name : String) : List Cell :=
  match df.cols.find? (fun p => p.1 == name) with
  | some p => p.2
  | none => []

/-- Whether `name` is among `df.columns`. -/
def DataFrame.hasCol (df : DataFrame) (name : String) : Bool :=
  df.cols.any fun p => p.1 == name

/-- Column assignment `df[name] = vals`: pandas overwrites an existing
column in place and appends a new one at the end. -/
def DataFrame.setCol (df : DataFrame) (name : String) (vals : List Cell) : DataFrame :=
  if df.hasCol name then
    ⟨df.cols.map fun p => if p.1 == name then (name, vals) else p⟩
  else
    ⟨df.cols ++ [(name, vals)]⟩

/-- The two per-language column names appended for each `lang`, in
assignment order (classify.py lines 150-152). -/
def langColNames (langs : List String) : List String :=
  langs.flatMap fun lang => ["problem_" ++ lang ++ "_candidates", "problem_" ++ lang]

/-- All column names appended by `classify_dataframe`, in assignment order
(classify.py lines 148-152). -/
def newColNames (langs : List String) : List String :=
  "problem_russ_candidates" :: "problem_russ" :: langColNames langs

/-- The per-language column assignments (classify.py lines 150-152): `k` is
the position of the current language inside `langs`, used to read the
aligned entry of each row's `per_lang` output. -/
def addLangCols (outs : List RowOut) : DataFrame → List String → Nat → DataFrame
  | df, [], _ => df
  | df, lang :: rest, k =>
    addLangCols outs
      ((df.setCol ("problem_" ++ lang ++ "_candidates")
          (outs.map fun o => some (o.per_lang.getD k ("", "")).1)).setCol
        ("problem_" ++ lang)
        (outs.map fun o => some (o.per_lang.getD k ("", "")).2))
      rest (k + 1)

/-- What `classify_dataframe` produces: the augmented dataframe, the usage
totals, the number of oracle invocations (instrumentation), and the cache
contents persisted at the end of the run (`none` when the best-effort write
failed, classify.py lines 142-145). -/
structure ClassifyResult where
  dfOut : DataFrame
  usage : Usage
  calls : Nat
  savedCache : Option Cache
deriving DecidableEq

/-- Model of `classify_dataframe` (classify.py lines 70-154): load the cache
(`cacheFileContents` models the state of `cache/classify_cache.json`), run
the row loop over the text column, append the output columns, and persist
the cache best-effort (`writeFails` models `cache_file.write_text`
raising). -/
def classify_dataframe (oracle : String → OracleReply) (df : DataFrame)
    (text_col : String) (problems_ru : List String)
    (T : String → String → String) (langs : List String) (maxLabels : Nat)
    (hash : String → String) (cacheFileContents : Option (Except Unit Cache))
    (writeFails : Bool) : Except Unit ClassifyResult :=
  let cache0 := initCache cacheFileContents
  match runRows oracle problems_ru T langs maxLabels hash ⟨cache0, Usage.zero, 0⟩
      (df.getCol text_col) with
  | .error e => .error e
  | .ok (st, outs) =>
    let df1 := df.setCol "problem_russ_candidates" (outs.map fun o => some o.candidates_ru)
    let df2 := df1.setCol "problem_russ" (outs.map fun o => some o.first_ru)
    .ok ⟨addLangCols outs df2 langs 0, st.usage, st.calls,
         if writeFails then none else some st.cache⟩

/-! ### Label merger (`assemble_data.py`) -/

/-- Model of `_normalize_label` (assemble_data.py lines 7-10): `None`/NaN becomes
`""`, otherwise `str(s).strip().lower()`. -/
def _normalize_label : Option String → String
  | none => ""
  | some s => pyLower (pyStrip s)

/-- Group 7.1 synonym set (assemble_data.py lines 24-34). -/
def ecology_synonyms : List String :=
  ["экологические проблемы", "экология", "загрязнение воздуха и воды",
   "загрязнение воздуха", "загрязнение воды", "изменение климата",
   "климатические изменения", "засуха", "засухи"]

/-- Group 7.2 synonym set (assemble_data.py lines 39-45). -/
def power_synonyms : List String :=
  ["сбои электроснабжения", "перебои с электричеством",
   "стоимость электроэнергии",
   "проблемы с электроэнергией (сбои, высокая стоимость, дефицит)",
   "электроэнергия"]

/-- Group 7.3 synonym set (assemble_data.py lines 50-54). -/
def housing_synonyms : List String :=
  ["жилищные условия", "высокие цены на жильё и аренду",
   "плохие жилищные условия и высокая стоимость жилья"]

/-- Group 7.4 synonym set (assemble_data.py lines 59-64). -/
def inflation_synonyms : List String :=
  ["инфляция", "инфляция и рост цен", "высокие цены на продукты",
   "высокие цены на топливо"]

/-- Model of `_merge_key_for_row` (assemble_data.py lines 13-69): the synonym groups
are tested in order, each against the normalized RU label or the normalized
base label; the fallback returns the base label verbatim. -/
def _merge_key_for_row (base_label : String) (ru_label : Option String) : String :=
  let ru_norm := _normalize_label ru_label
  let base_norm := _normalize_label (some base_label)
  if ecology_synonyms.contains ru_norm || ecology_synonyms.contains base_norm then
    "Экология, климат и загрязнение"
  else if power_synonyms.contains ru_norm || power_synonyms.contains base_norm then
    "Электроэнергия: сбои и высокая стоимость"
  else if housing_synonyms.contains ru_norm || housing_synonyms.contains base_norm then
    "Жильё: условия и высокая стоимость"
  else if inflation_synonyms.contains ru_norm || inflation_synonyms.contains base_norm then
    "Инфляция и рост цен (продукты, топливо)"
  else
    base_label

/-! ### Vocabulary translation (`translate.py`) -/

/-- The provenance of the final value of `result[ru][lang]` built by
translate.py lines 61-66: the loop assigns `result[ru][lang] =
str(arr[idx]).strip()` for every `idx < len(arr)` with
`problems_ru[idx] = ru`, in increasing `idx`, so the last such index wins.
`pairs` is `enumerate(problems_ru)` and `n` is `len(arr)`. -/
def lastAssigned (pairs : List (Nat × String)) (n : Nat) (ru : String) : Option Nat :=
  pairs.foldl (fun acc p => if p.2 = ru ∧ p.1 < n then some p.1 else acc) none

/-- The downstream lookup `translations.get(ru, {}).get(lang, "")`
(classify.py line 136) applied to the mapping built by `translate_problems`
(translate.py lines 61-67) from a parsed response: `resp lang` models
`translations.get(lang, [])` of the response body. -/
def translationLookup (problems_ru : List String) (langs : List String)
    (resp : String → List String) (ru lang : String) : String :=
  if ru ∈ problems_ru ∧ lang ∈ langs then
    match lastAssigned problems_ru.enum (resp lang).length ru with
    | some idx => pyStrip ((resp lang).getD idx "")
    | none => ""
  else ""

/-! ### Helper lemmas -/

/-- Looking up a key right after storing it yields the stored value. -/
theorem cacheFind_cacheInsert (c : Cache) (k : String) (v : List Int) :
    cacheFind (cacheInsert c k v) k = some v := by
  induction c with
  | nil => simp [cacheInsert, cacheFind, List.find?]
  | cons p rest ih =>
    by_cases hpk : p.1 == k
    · simp [cacheInsert, hpk, cacheFind, List.find?]
    · simp only [cacheInsert, hpk, Bool.false_eq_true, if_false]
      simpa [cacheFind, List.find?, hpk] using ih

/-- On an all-numeric parsed list the `isinstance` filter keeps every item. -/
theorem numericIds_length (xs : List JItem) (h : ∀ it ∈ xs, it.isNum = true) :
    (numericIds xs).length = xs.length := by
  induction xs with
  | nil => rfl
  | cons it rest ih =>
    have hit := h it (List.mem_cons_self it rest)
    cases it with
    | num n =>
      simp only [numericIds, List.filterMap_cons] at ih ⊢
      simpa [numericIds] using ih fun a ha => h a (List.mem_cons_of_mem _ ha)
    | other => simp [JItem.isNum] at hit

/-! ### Claim theorems -/

/-- C7: a row whose text is missing or blank after stripping gets empty
candidate and primary values for the base language and for every requested
target language, and the loop state is unchanged — no oracle call, no cache
lookup or write, zero usage added. -/
theorem classify_blank_text_short_circuit
    (oracle : String → OracleReply) (problems_ru : List String)
    (T : String → String → String) (langs : List String) (maxLabels : Nat)
    (hash : String → String) (st : RunState) (cell : Cell)
    (h : pyStrip (cell.getD "") = "") :
    processRow oracle problems_ru T langs maxLabels hash st cell = .ok (st, blankRow langs) ∧
    (blankRow langs).candidates_ru = "" ∧ (blankRow langs).first_ru = "" ∧
    ∀ p ∈ (blankRow langs).per_lang, p = ("", "") := by
  refine ⟨by simp [processRow, h], rfl, rfl, ?_⟩
  intro p hp
  simp only [blankRow, List.mem_map] at hp
  obtain ⟨-, -, rfl⟩ := hp
  rfl

/-- C7 witness: a whitespace-only cell with one requested language. -/
theorem classify_blank_text_short_circuit_witness :
    pyStrip ((some "  " : Cell).getD "") = "" ∧
    (processRow (fun _ => ⟨.list [.num 1], ⟨1, 1, 2⟩⟩) ["a"] (fun _ _ => "") ["en"] 3
        (fun s => s) ⟨[], Usage.zero, 0⟩ (some "  ") = .ok (⟨[], Usage.zero, 0⟩, blankRow ["en"]) ∧
      (blankRow ["en"]).candidates_ru = "" ∧ (blankRow ["en"]).first_ru = "" ∧
      ∀ p ∈ (blankRow ["en"]).per_lang, p = ("", "")) :=
  ⟨by decide,
   classify_blank_text_short_circuit (fun _ => ⟨.list [.num 1], ⟨1, 1, 2⟩⟩) ["a"]
     (fun _ _ => "") ["en"] 3 (fun s => s) ⟨[], Usage.zero, 0⟩ (some "  ") (by decide)⟩

/-- C8: a missing cache file and an unreadable cache file both start the
run with the empty cache and behave exactly like a readable empty cache
file, and a failing end-of-run cache write changes nothing in the returned
rows, usage totals and call count — only the persisted copy is lost. -/
theorem classify_cache_resilience
    (oracle : String → OracleReply) (df : DataFrame) (text_col : String)
    (problems_ru : List String) (T : String → String → String)
    (langs : List String) (maxLabels : Nat) (hash : String → String)
    (contents : Option (Except Unit Cache)) :
    initCache none = [] ∧
    initCache (some (.error ())) = [] ∧
    classify_dataframe oracle df text_col problems_ru T langs maxLabels hash none false =
      classify_dataframe oracle df text_col problems_ru T langs maxLabels hash
        (some (.error ())) false ∧
    classify_dataframe oracle df text_col problems_ru T langs maxLabels hash none false =
      classify_dataframe oracle df text_col problems_ru T langs maxLabels hash
        (some (.ok [])) false ∧
    classify_dataframe oracle df text_col problems_ru T langs maxLabels hash contents true =
      (classify_dataframe oracle df text_col problems_ru T langs maxLabels hash
          contents false).map fun r => { r with savedCache := none } := by
  refine ⟨rfl, rfl, rfl, rfl, ?_⟩
  cases h : runRows oracle problems_ru T langs maxLabels hash
      ⟨initCache contents, Usage.zero, 0⟩ (df.getCol text_col) with
  | error e => simp [classify_dataframe, h, Except.map]
  | ok p =>
    obtain ⟨st, outs⟩ := p
    simp [classify_dataframe, h, Except.map]

/-- C3: evaluation of `_merge_key_for_row` at a failing input for the
claimed RU-label priority. The base label belongs to the ecology synonym
set and the RU (secondary) label to the inflation synonym set; the code
returns the ecology umbrella because synonym groups are tried in a fixed
order with either label accepted, so the raw label's earlier group beats
the secondary label's later group, contrary to the function's own
docstring priority. -/
theorem merge_group_order_beats_ru_priority :
    _merge_key_for_row "экология" (some "инфляция") = "Экология, климат и загрязнение" ∧
    "Экология, климат и загрязнение" ≠ "Инфляция и рост цен (продукты, топливо)" := by
  exact ⟨by decide, by decide⟩

/-- C1 counterexample: an oracle response that fails to parse as JSON
raises out of `_safe_json_loads` and aborts the whole batch — here a
single-row dataframe with a classify run that ends in an error instead of
degrading to zero labels. -/
theorem classify_parse_error_aborts_run :
    classify_dataframe (fun _ => ⟨.parseError, ⟨1, 1, 2⟩⟩) ⟨[("text", [some "hi"])]⟩ "text"
      ["проблема"] (fun _ _ => "") ["en"] 3 (fun s => s) none false = .error () := by
  rfl

/-- C2 counterexample: the pre-hash strings of the distinct pairs
`("a|b", ["c"])` and `("a", ["b", "c"])` coincide (both are `"a|b|c"`), so
the two pairs receive the same cache key under every digest function. -/
theorem fingerprint_collision_distinct_pairs :
    fingerprintCollision "a|b" ["c"] "a" ["b", "c"] ∧
    ¬("a|b" = "a" ∧ ["c"] = ["b", "c"]) :=
  ⟨fun hash => congrArg hash (by decide), by decide⟩

/-- C1 amended: an oracle response that parses but lacks the top-level
`problem_ids` list (or carries a non-list value there) is treated as zero
labels for that text — empty candidates and primaries in every language —
the id list stored for the row is empty, and the batch continues with the
remaining rows. (The unparseable-response case instead raises, see the
counterexample.) -/
theorem classify_missing_field_zero_labels
    (oracle : String → OracleReply) (problems_ru : List String)
    (T : String → String → String) (langs : List String) (maxLabels : Nat)
    (hash : String → String) (st : RunState) (t : String) (cs : List Cell)
    (ht : pyStrip t ≠ "")
    (hmiss : cacheFind st.cache (fingerprint hash (pyStrip t) problems_ru) = none)
    (hb : (oracle (pyStrip t)).body = OracleIds.missing ∨
          (oracle (pyStrip t)).body = OracleIds.notList) :
    runRows oracle problems_ru T langs maxLabels hash st (some t :: cs) =
      (runRows oracle problems_ru T langs maxLabels hash
          ⟨cacheInsert st.cache (fingerprint hash (pyStrip t) problems_ru) [],
           st.usage.add (oracle (pyStrip t)).usage, st.calls + 1⟩ cs).map
        (fun p => (p.1, mkRow problems_ru T langs [] :: p.2)) ∧
    (mkRow problems_ru T langs []).candidates_ru = "" ∧
    (mkRow problems_ru T langs []).first_ru = "" ∧
    ∀ p ∈ (mkRow problems_ru T langs []).per_lang, p = ("", "") := by
  have hpr : processRow oracle problems_ru T langs maxLabels hash st (some t) =
      .ok (⟨cacheInsert st.cache (fingerprint hash (pyStrip t) problems_ru) [],
            st.usage.add (oracle (pyStrip t)).usage, st.calls + 1⟩,
           mkRow problems_ru T langs []) := by
    rcases hb with hb | hb <;>
      simp [processRow, ht, hmiss, hb, rawIds, numericIds]
  refine ⟨?_, rfl, rfl, ?_⟩
  · rw [runRows, hpr]
    cases hrest : runRows oracle problems_ru T langs maxLabels hash
        ⟨cacheInsert st.cache (fingerprint hash (pyStrip t) problems_ru) [],
         st.usage.add (oracle (pyStrip t)).usage, st.calls + 1⟩ cs with
    | error e => simp [hrest, Except.map]
    | ok p => simp [hrest, Except.map]
  · intro p hp
    simp only [mkRow, ruLabels, langLabels, List.filter_nil, List.map_nil,
      List.mem_map] at hp
    obtain ⟨-, -, rfl⟩ := hp
    rfl

/-- C1 amended witness: a one-row batch whose oracle reply parses but has
no `problem_ids` key, followed by one more row, runs to completion with
empty labels for the first row. -/
theorem classify_missing_field_zero_labels_witness :
    pyStrip "hi" ≠ "" ∧
    cacheFind ([] : Cache) (fingerprint (fun s => s) (pyStrip "hi") ["a"]) = none ∧
    ((fun _ => (⟨.missing, ⟨1, 1, 2⟩⟩ : OracleReply)) (pyStrip "hi")).body = OracleIds.missing ∧
    (runRows (fun _ => ⟨.missing, ⟨1, 1, 2⟩⟩) ["a"] (fun _ _ => "") ["en"] 3 (fun s => s)
        ⟨[], Usage.zero, 0⟩ (some "hi" :: [none]) =
      (runRows (fun _ => ⟨.missing, ⟨1, 1, 2⟩⟩) ["a"] (fun _ _ => "") ["en"] 3 (fun s => s)
          ⟨cacheInsert [] (fingerprint (fun s => s) (pyStrip "hi") ["a"]) [],
           Usage.zero.add ((fun _ => (⟨.missing, ⟨1, 1, 2⟩⟩ : OracleReply)) (pyStrip "hi")).usage,
           0 + 1⟩ [none]).map
        (fun p => (p.1, mkRow ["a"] (fun _ _ => "") ["en"] [] :: p.2)) ∧
      (mkRow ["a"] (fun _ _ => "") ["en"] []).candidates_ru = "" ∧
      (mkRow ["a"] (fun _ _ => "") ["en"] []).first_ru = "" ∧
      ∀ p ∈ (mkRow ["a"] (fun _ _ => "") ["en"] []).per_lang, p = ("", "")) :=
  ⟨by decide, by decide, by decide,
   classify_missing_field_zero_labels (fun _ => ⟨.missing, ⟨1, 1, 2⟩⟩) ["a"] (fun _ _ => "")
     ["en"] 3 (fun s => s) ⟨[], Usage.zero, 0⟩ "hi" [none] (by decide) (by decide)
     (Or.inl (by decide))⟩

/-- C4: processing the same cell a second time, starting from the state
produced by the first processing, yields the identical row output and the
identical state — on the warm pass the oracle is not invoked, no usage is
added and the cache is not modified. -/
theorem classify_cache_idempotent
    (oracle : String → OracleReply) (problems_ru : List String)
    (T : String → String → String) (langs : List String) (maxLabels : Nat)
    (hash : String → String) (st st₁ : RunState) (out : RowOut) (cell : Cell)
    (h : processRow oracle problems_ru T langs maxLabels hash st cell = .ok (st₁, out)) :
    processRow oracle problems_ru T langs maxLabels hash st₁ cell = .ok (st₁, out) := by
  by_cases hblank : pyStrip (cell.getD "") = ""
  · simp only [processRow, hblank, if_pos] at h ⊢
    simp only [Except.ok.injEq, Prod.mk.injEq] at h
    obtain ⟨rfl, rfl⟩ := h
    rfl
  · simp only [processRow, hblank, if_neg, if_false] at h ⊢
    cases hc : cacheFind st.cache (fingerprint hash (pyStrip (cell.getD "")) problems_ru) with
    | some ids =>
      rw [hc] at h
      simp only [Except.ok.injEq, Prod.mk.injEq] at h
      obtain ⟨rfl, rfl⟩ := h
      rw [hc]
    | none =>
      rw [hc] at h
      cases hro : rawIds (oracle (pyStrip (cell.getD ""))).body with
      | none => rw [hro] at h; exact absurd h (by simp)
      | some xs =>
        rw [hro] at h
        simp only [Except.ok.injEq, Prod.mk.injEq] at h
        obtain ⟨rfl, rfl⟩ := h
        rw [cacheFind_cacheInsert]

/-- C4 witness: a cold pass on text `"hi"` with vocabulary `["a"]` stores
the clamped ids and a warm pass reproduces the same row and state. -/
theorem classify_cache_idempotent_witness :
    processRow (fun _ => ⟨.list [.num 1], ⟨1, 1, 2⟩⟩) ["a"] (fun _ _ => "") [] 3 (fun s => s)
      ⟨[("hi|a", [1])], ⟨1, 1, 2⟩, 1⟩ (some "hi") =
      .ok (⟨[("hi|a", [1])], ⟨1, 1, 2⟩, 1⟩, ⟨"a", "a", []⟩) :=
  classify_cache_idempotent (fun _ => ⟨.list [.num 1], ⟨1, 1, 2⟩⟩) ["a"] (fun _ _ => "") [] 3
    (fun s => s) ⟨[], Usage.zero, 0⟩ ⟨[("hi|a", [1])], ⟨1, 1, 2⟩, 1⟩ ⟨"a", "a", []⟩
    (some "hi") rfl

/-- C5: when the parsed oracle response holds only numeric ids and more of
them than `max_labels_per_text`, the id sequence stored in the cache and
used for the row is exactly the first `max_labels_per_text` response ids in
their original order, and its length is exactly `max_labels_per_text`. -/
theorem classify_label_clamping
    (oracle : String → OracleReply) (problems_ru : List String)
    (T : String → String → String) (langs : List String) (maxLabels : Nat)
    (hash : String → String) (st : RunState) (t : String) (xs : List JItem)
    (ht : pyStrip t ≠ "")
    (hmiss : cacheFind st.cache (fingerprint hash (pyStrip t) problems_ru) = none)
    (hb : (oracle (pyStrip t)).body = OracleIds.list xs)
    (hnum : ∀ it ∈ xs, it.isNum = true)
    (hlen : maxLabels < xs.length) :
    processRow oracle problems_ru T langs maxLabels hash st (some t) =
      .ok (⟨cacheInsert st.cache (fingerprint hash (pyStrip t) problems_ru)
              ((numericIds xs).take maxLabels),
            st.usage.add (oracle (pyStrip t)).usage, st.calls + 1⟩,
           mkRow problems_ru T langs ((numericIds xs).take maxLabels)) ∧
    cacheFind (cacheInsert st.cache (fingerprint hash (pyStrip t) problems_ru)
        ((numericIds xs).take maxLabels))
      (fingerprint hash (pyStrip t) problems_ru) = some ((numericIds xs).take maxLabels) ∧
    ((numericIds xs).take maxLabels).length = maxLabels ∧
    ∀ j < maxLabels, ((numericIds xs).take maxLabels)[j]? = (numericIds xs)[j]? := by
  refine ⟨by simp [processRow, ht, hmiss, hb, rawIds], cacheFind_cacheInsert .., ?_, ?_⟩
  · rw [List.length_take, numericIds_length xs hnum]
    omega
  · intro j hj
    exact List.getElem?_take_of_lt hj

/-- C5 witness: four numeric ids with `max_labels_per_text = 3` store the
first three in order. -/
theorem classify_label_clamping_witness :
    pyStrip "hi" ≠ "" ∧
    cacheFind ([] : Cache) (fingerprint (fun s => s) (pyStrip "hi") ["a"]) = none ∧
    (∀ it ∈ [JItem.num 1, JItem.num 2, JItem.num 3, JItem.num 4], it.isNum = true) ∧
    3 < [JItem.num 1, JItem.num 2, JItem.num 3, JItem.num 4].length ∧
    (((numericIds [JItem.num 1, JItem.num 2, JItem.num 3, JItem.num 4]).take 3).length = 3 ∧
      ∀ j < 3, ((numericIds [JItem.num 1, JItem.num 2, JItem.num 3, JItem.num 4]).take 3)[j]? =
        (numericIds [JItem.num 1, JItem.num 2, JItem.num 3, JItem.num 4])[j]?) :=
  ⟨by decide, by decide, by decide, by decide,
   (classify_label_clamping
      (fun _ => ⟨.list [JItem.num 1, JItem.num 2, JItem.num 3, JItem.num 4], ⟨1, 1, 2⟩⟩)
      ["a"] (fun _ _ => "") [] 3 (fun s => s) ⟨[], Usage.zero, 0⟩ "hi"
      [JItem.num 1, JItem.num 2, JItem.num 3, JItem.num 4]
      (by decide) (by decide) (by decide) (by decide) (by decide)).2.2⟩

/-- C6: out-of-range ids contribute nothing to a row's candidate list —
filtering them away first changes nothing — while, when every vocabulary
label is nonempty (as the repository's problems-file loader guarantees),
the candidate list is exactly the in-range ids mapped to their labels in
oracle order, and the row's pipe-joined candidate column is built from it. -/
theorem classify_out_of_range_discard
    (problems_ru : List String) (T : String → String → String)
    (langs : List String) (ids : List Int)
    (hlab : ∀ s ∈ problems_ru, s ≠ "") :
    ruLabels problems_ru ids =
      (ids.filter fun i => decide (1 ≤ i ∧ i ≤ (problems_ru.length : Int))).map
        (fun i => problems_ru.getD (i - 1).toNat "") ∧
    ruLabels problems_ru ids =
      ruLabels problems_ru
        (ids.filter fun i => decide (1 ≤ i ∧ i ≤ (problems_ru.length : Int))) ∧
    (mkRow problems_ru T langs ids).candidates_ru = pyJoin "|" (ruLabels problems_ru ids) := by
  refine ⟨?_, ?_, rfl⟩
  · rw [ruLabels, List.filter_eq_self]
    intro a ha
    rw [List.mem_map] at ha
    obtain ⟨i, hi, rfl⟩ := ha
    rw [List.mem_filter] at hi
    have hrange := of_decide_eq_true hi.2
    have hidx : (i - 1).toNat < problems_ru.length := by omega
    have hmem : problems_ru.getD (i - 1).toNat "" ∈ problems_ru := by
      rw [List.getD_eq_getElem _ _ hidx]
      exact List.getElem_mem hidx
    simpa using hlab _ hmem
  · simp [ruLabels, List.filter_filter]

/-- C6 witness: vocabulary of two nonempty labels, response ids
`[2, 0, 1, 3]` — ids `0` and `3` are discarded, ids `2` and `1` are kept
in order. -/
theorem classify_out_of_range_discard_witness :
    (∀ s ∈ ["power outages", "housing cost"], s ≠ "") ∧
    (ruLabels ["power outages", "housing cost"] [2, 0, 1, 3] =
        ([2, 0, 1, 3].filter fun i =>
          decide (1 ≤ i ∧ i ≤ (["power outages", "housing cost"].length : Int))).map
          (fun i => ["power outages", "housing cost"].getD (i - 1).toNat "") ∧
      ruLabels ["power outages", "housing cost"] [2, 0, 1, 3] =
        ruLabels ["power outages", "housing cost"]
          ([2, 0, 1, 3].filter fun i =>
            decide (1 ≤ i ∧ i ≤ (["power outages", "housing cost"].length : Int))) ∧
      (mkRow ["power outages", "housing cost"] (fun _ _ => "") [] [2, 0, 1, 3]).candidates_ru =
        pyJoin "|" (ruLabels ["power outages", "housing cost"] [2, 0, 1, 3])) :=
  ⟨by decide,
   classify_out_of_range_discard ["power outages", "housing cost"] (fun _ _ => "") []
     [2, 0, 1, 3] (by decide)⟩

/-- When no enumerated pair satisfies the assignment condition, the
translation build loop leaves the entry unassigned. -/
theorem lastAssigned_eq_none (n : Nat) (ru : String) :
    ∀ pairs : List (Nat × String), (∀ p ∈ pairs, ¬(p.2 = ru ∧ p.1 < n)) →
      lastAssigned pairs n ru = none := by
  intro pairs h
  induction pairs with
  | nil => rfl
  | cons p rest ih =>
    have hp := h p (List.mem_cons_self ..)
    have step : lastAssigned (p :: rest) n ru = lastAssigned rest n ru := by
      simp only [lastAssigned, List.foldl_cons, if_neg hp]
    rw [step]
    exact ih fun q hq => h q (List.mem_cons_of_mem _ hq)

/-- C9: when the parsed translation response is shorter than the
vocabulary for a language, a (duplicate-free, per the spec's vocabulary
invariant) label whose position lies beyond the returned list yields the
empty string in the downstream `translations.get(ru, {}).get(lang, "")`
lookup used during classification — no error is raised, the model of the
build loop being total exactly like the `idx < len(arr)`-guarded source. -/
theorem translate_short_response_empty_string
    (problems_ru langs : List String) (resp : String → List String)
    (idx : Nat) (ru lang : String)
    (hnd : problems_ru.Nodup)
    (hidx : problems_ru[idx]? = some ru)
    (hshort : (resp lang).length ≤ idx) :
    translationLookup problems_ru langs resp ru lang = "" := by
  have hnone : lastAssigned problems_ru.enum (resp lang).length ru = none := by
    apply lastAssigned_eq_none
    intro p hp hcontra
    obtain ⟨hpr, hplt⟩ := hcontra
    rw [List.mem_enum_iff_getElem?] at hp
    have heq : p.1 = idx := by
      have hlt : p.1 < problems_ru.length := by
        rcases List.getElem?_eq_some.mp hp with ⟨hlt, -⟩
        exact hlt
      exact List.getElem?_inj hlt hnd (by rw [hp, hpr, hidx])
    omega
  unfold translationLookup
  by_cases hmem : ru ∈ problems_ru ∧ lang ∈ langs
  · simp [hmem, hnone]
  · simp [hmem]

/-- C9 witness: vocabulary `["a", "b"]`, a one-entry English translation
list — label `"b"` at position 1 is beyond the list and looks up to `""`. -/
theorem translate_short_response_empty_string_witness :
    (["a", "b"] : List String).Nodup ∧ (["a", "b"] : List String)[1]? = some "b" ∧
    ((fun _ => ["x"]) "en" : List String).length ≤ 1 ∧
    translationLookup ["a", "b"] ["en"] (fun _ => ["x"]) "b" "en" = "" :=
  ⟨by decide, by decide, by decide,
   translate_short_response_empty_string ["a", "b"] ["en"] (fun _ => ["x"]) 1 "b" "en"
     (by decide) (by decide) (by decide)⟩

/-- Splitting a character list at its first separator occurrence is
unambiguous when the parts left of the separator avoid it. -/
theorem append_sep_inj (sep : Char) :
    ∀ (l₁ l₂ r₁ r₂ : List Char), sep ∉ l₁ → sep ∉ l₂ →
      l₁ ++ sep :: r₁ = l₂ ++ sep :: r₂ → l₁ = l₂ ∧ r₁ = r₂
  | [], [], r₁, r₂, _, _, h => ⟨rfl, by simpa using h⟩
  | [], c :: l₂, r₁, r₂, h₁, h₂, h => by
    simp only [List.nil_append, List.cons_append, List.cons.injEq] at h
    cases h.1
    exact absurd (List.mem_cons_self ..) h₂
  | c :: l₁, [], r₁, r₂, h₁, h₂, h => by
    simp only [List.nil_append, List.cons_append, List.cons.injEq] at h
    cases h.1.symm
    exact absurd (List.mem_cons_self ..) h₁
  | c₁ :: l₁, c₂ :: l₂, r₁, r₂, h₁, h₂, h => by
    simp only [List.cons_append, List.cons.injEq] at h
    obtain ⟨rfl, h⟩ := h
    have hrec := append_sep_inj sep l₁ l₂ r₁ r₂
      (fun hm => h₁ (List.mem_cons_of_mem _ hm))
      (fun hm => h₂ (List.mem_cons_of_mem _ hm)) h
    exact ⟨by rw [hrec.1], hrec.2⟩

/-- Character-list view of appending a head segment, the separator and a
tail string. -/
theorem data_sep_append (x J : String) : (x ++ "|" ++ J).data = x.data ++ '|' :: J.data := by
  simp [String.data_append]

/-- Joining with `"|"` is injective on lists of nonempty labels that avoid
the separator character. -/
theorem pyJoin_pipe_inj :
    ∀ (V₁ V₂ : List String),
      (∀ v ∈ V₁, v ≠ "" ∧ '|' ∉ v.data) → (∀ v ∈ V₂, v ≠ "" ∧ '|' ∉ v.data) →
      pyJoin "|" V₁ = pyJoin "|" V₂ → V₁ = V₂
  | [], [], _, _, _ => rfl
  | [], y :: ys, h₁, h₂, h => by
    cases ys with
    | nil => exact absurd (by simpa [pyJoin] using h.symm) (h₂ y (List.mem_cons_self ..)).1
    | cons z zs =>
      have hd := congrArg String.data h
      rw [pyJoin, pyJoin, data_sep_append] at hd
      exact absurd hd.symm (by simp)
  | x :: xs, [], h₁, h₂, h => by
    cases xs with
    | nil => exact absurd (by simpa [pyJoin] using h) (h₁ x (List.mem_cons_self ..)).1
    | cons w ws =>
      have hd := congrArg String.data h
      rw [pyJoin, pyJoin, data_sep_append] at hd
      exact absurd hd (by simp)
  | x :: xs, y :: ys, h₁, h₂, h => by
    cases xs with
    | nil =>
      cases ys with
      | nil => rw [show x = y by simpa [pyJoin] using h]
      | cons z zs =>
        have hd := congrArg String.data h
        rw [pyJoin, pyJoin, data_sep_append] at hd
        have hpipe : '|' ∈ x.data := by
          rw [hd]
          simp
        exact absurd hpipe (h₁ x (List.mem_cons_self ..)).2
    | cons w ws =>
      cases ys with
      | nil =>
        have hd := congrArg String.data h
        rw [pyJoin, pyJoin, data_sep_append] at hd
        have hpipe : '|' ∈ y.data := by
          rw [← hd]
          simp
        exact absurd hpipe (h₂ y (List.mem_cons_self ..)).2
      | cons z zs =>
        have hd := congrArg String.data h
        rw [pyJoin, pyJoin, data_sep_append, data_sep_append] at hd
        obtain ⟨hdx, hdJ⟩ := append_sep_inj '|' _ _ _ _
          (h₁ x (List.mem_cons_self ..)).2 (h₂ y (List.mem_cons_self ..)).2 hd
        have hx : x = y := String.ext hdx
        have hrest : (w :: ws : List String) = z :: zs :=
          pyJoin_pipe_inj (w :: ws) (z :: zs)
            (fun v hv => h₁ v (List.mem_cons_of_mem _ hv))
            (fun v hv => h₂ v (List.mem_cons_of_mem _ hv)) (String.ext hdJ)
        rw [hx, hrest]

/-- C2 amended: the fingerprint of (text, vocabulary) is repeatable, and
when the text and the vocabulary labels avoid the `'|'` separator and the
labels are nonempty, distinct (text, vocabulary) pairs produce distinct
pre-hash digest inputs; without those conditions distinct pairs can share
a cache key (see the counterexample), and the truncated SHA-256 digest
applied afterwards may in principle still collide. -/
theorem fingerprint_repeatable_and_input_injective
    (hash : String → String) (t₁ t₂ : String) (V₁ V₂ : List String)
    (ht₁ : '|' ∉ t₁.data) (ht₂ : '|' ∉ t₂.data)
    (hV₁ : ∀ v ∈ V₁, v ≠ "" ∧ '|' ∉ v.data) (hV₂ : ∀ v ∈ V₂, v ≠ "" ∧ '|' ∉ v.data) :
    fingerprint hash t₁ V₁ = fingerprint hash t₁ V₁ ∧
    (fingerprintInput t₁ V₁ = fingerprintInput t₂ V₂ → t₁ = t₂ ∧ V₁ = V₂) := by
  refine ⟨rfl, fun h => ?_⟩
  have hd := congrArg String.data h
  rw [fingerprintInput, fingerprintInput, data_sep_append, data_sep_append] at hd
  obtain ⟨hdt, hdJ⟩ := append_sep_inj '|' _ _ _ _ ht₁ ht₂ hd
  exact ⟨String.ext hdt, pyJoin_pipe_inj V₁ V₂ hV₁ hV₂ (String.ext hdJ)⟩

/-- C2 amended witness: separator-free texts `"a"`, `"b"` and vocabularies
`["x"]`, `["y"]`. -/
theorem fingerprint_repeatable_and_input_injective_witness :
    ('|' ∉ "a".data) ∧ ('|' ∉ "b".data) ∧
    (∀ v ∈ (["x"] : List String), v ≠ "" ∧ '|' ∉ v.data) ∧
    (∀ v ∈ (["y"] : List String), v ≠ "" ∧ '|' ∉ v.data) ∧
    (fingerprint (fun s => s) "a" ["x"] = fingerprint (fun s => s) "a" ["x"] ∧
      (fingerprintInput "a" ["x"] = fingerprintInput "b" ["y"] → "a" = "b" ∧ ["x"] = ["y"])) :=
  ⟨by decide, by decide, by decide, by decide,
   fingerprint_repeatable_and_input_injective (fun s => s) "a" "b" ["x"] ["y"]
     (by decide) (by decide) (by decide) (by decide)⟩

/-- The row loop produces exactly one output per input row. -/
theorem runRows_length (oracle : String → OracleReply) (problems_ru : List String)
    (T : String → String → String) (langs : List String) (maxLabels : Nat)
    (hash : String → String) :
    ∀ (cells : List Cell) (st st' : RunState) (outs : List RowOut),
      runRows oracle problems_ru T langs maxLabels hash st cells = .ok (st', outs) →
      outs.length = cells.length := by
  intro cells
  induction cells with
  | nil =>
    intro st st' outs h
    simp only [runRows, Except.ok.injEq, Prod.mk.injEq] at h
    obtain ⟨-, rfl⟩ := h
    rfl
  | cons c cs ih =>
    intro st st' outs h
    rw [runRows] at h
    cases hpr : processRow oracle problems_ru T langs maxLabels hash st c with
    | error e => rw [hpr] at h; simp at h
    | ok p =>
      obtain ⟨st₁, out⟩ := p
      rw [hpr] at h
      simp only [] at h
      cases hrr : runRows oracle problems_ru T langs maxLabels hash st₁ cs with
      | error e => rw [hrr] at h; simp at h
      | ok q =>
        obtain ⟨st₂, outs'⟩ := q
        rw [hrr] at h
        simp only [Except.ok.injEq, Prod.mk.injEq] at h
        obtain ⟨-, rfl⟩ := h
        simp [ih st₁ st₂ outs' hrr]

/-- Assigning a fresh column appends it at the end. -/
theorem setCol_fresh (df : DataFrame) (name : String) (vals : List Cell)
    (h : df.hasCol name = false) :
    (df.setCol name vals).cols = df.cols ++ [(name, vals)] := by
  simp [DataFrame.setCol, h]

/-- Column presence after assigning a fresh column. -/
theorem hasCol_setCol_fresh (df : DataFrame) (m n : String) (v : List Cell)
    (h : df.hasCol m = false) :
    (df.setCol m v).hasCol n = (df.hasCol n || (m == n)) := by
  have h' : (df.cols.any fun p => p.1 == m) = false := h
  simp [DataFrame.setCol, DataFrame.hasCol, h', List.any_append]

/-- Two column names are appended per requested language. -/
theorem langColNames_length (langs : List String) :
    (langColNames langs).length = 2 * langs.length := by
  induction langs with
  | nil => rfl
  | cons l ls ih =>
    simp only [langColNames, List.flatMap_cons, List.length_append, List.length_cons,
      List.length_nil] at ih ⊢
    omega

/-- The per-language column assignments append exactly the per-language
column names, in order, each column holding one value per row output. -/
theorem addLangCols_spec (outs : List RowOut) :
    ∀ (langs : List String) (k : Nat) (df : DataFrame),
      (∀ n ∈ langColNames langs, df.hasCol n = false) →
      (langColNames langs).Nodup →
      ∃ added : List (String × List Cell),
        (addLangCols outs df langs k).cols = df.cols ++ added ∧
        added.map Prod.fst = langColNames langs ∧
        ∀ p ∈ added, p.2.length = outs.length := by
  intro langs
  induction langs with
  | nil =>
    intro k df _ _
    exact ⟨[], by simp [addLangCols], by simp [langColNames], by simp⟩
  | cons lang rest ih =>
    intro k df hfresh hnd
    have hnames : langColNames (lang :: rest) =
        ("problem_" ++ lang ++ "_candidates") :: ("problem_" ++ lang) :: langColNames rest := by
      simp [langColNames]
    rw [hnames] at hfresh hnd
    have hn₁ : df.hasCol ("problem_" ++ lang ++ "_candidates") = false :=
      hfresh ("problem_" ++ lang ++ "_candidates") (List.mem_cons_self _ _)
    have hn₂ : df.hasCol ("problem_" ++ lang) = false :=
      hfresh ("problem_" ++ lang) (List.mem_cons_of_mem _ (List.mem_cons_self _ _))
    rw [List.nodup_cons] at hnd
    obtain ⟨hnm₁, hnd⟩ := hnd
    rw [List.nodup_cons] at hnd
    obtain ⟨hnm₂, hnd⟩ := hnd
    have hne : ("problem_" ++ lang ++ "_candidates") ≠ ("problem_" ++ lang) := by
      intro hc
      exact hnm₁ (by rw [hc]; exact List.mem_cons_self _ _)
    have h₂fresh :
        (df.setCol ("problem_" ++ lang ++ "_candidates")
            (outs.map fun o => some (o.per_lang.getD k ("", "")).1)).hasCol
          ("problem_" ++ lang) = false := by
      rw [hasCol_setCol_fresh _ _ _ _ hn₁, hn₂]
      simpa using hne
    have hrestfresh : ∀ n ∈ langColNames rest,
        ((df.setCol ("problem_" ++ lang ++ "_candidates")
            (outs.map fun o => some (o.per_lang.getD k ("", "")).1)).setCol
          ("problem_" ++ lang)
          (outs.map fun o => some (o.per_lang.getD k ("", "")).2)).hasCol n = false := by
      intro n hn
      rw [hasCol_setCol_fresh _ _ _ _ h₂fresh, hasCol_setCol_fresh _ _ _ _ hn₁]
      have h1 : df.hasCol n = false := hfresh n (by simp [hn])
      have h2 : ("problem_" ++ lang ++ "_candidates") ≠ n := by
        intro hc
        exact hnm₁ (by rw [hc]; exact List.mem_cons_of_mem _ hn)
      have h3 : ("problem_" ++ lang) ≠ n := by
        intro hc
        exact hnm₂ (by rw [hc]; exact hn)
      simp [h1, h2, h3]
    obtain ⟨added', ha1, ha2, ha3⟩ := ih (k + 1) _ hrestfresh hnd
    refine ⟨("problem_" ++ lang ++ "_candidates",
              outs.map fun o => some (o.per_lang.getD k ("", "")).1) ::
            ("problem_" ++ lang,
              outs.map fun o => some (o.per_lang.getD k ("", "")).2) :: added', ?_, ?_, ?_⟩
    · rw [addLangCols, ha1,
        setCol_fresh _ _ _ h₂fresh,
        setCol_fresh _ _ _ hn₁]
      simp
    · rw [hnames]
      simp [ha2]
    · intro p hp
      simp only [List.mem_cons] at hp
      rcases hp with rfl | rfl | hp
      · simp
      · simp
      · exact ha3 p hp

/-- C10: on a successful run with fresh, pairwise-distinct output column
names, `classify_dataframe` leaves every pre-existing column in place with
its values unchanged and appends exactly two base-language columns plus
two columns per requested target language, each appended column holding
one value per input row (row count taken from the text column). -/
theorem classify_dataframe_frame_effect
    (oracle : String → OracleReply) (df : DataFrame) (text_col : String)
    (problems_ru : List String) (T : String → String → String)
    (langs : List String) (maxLabels : Nat) (hash : String → String)
    (contents : Option (Except Unit Cache)) (wf : Bool) (res : ClassifyResult)
    (h : classify_dataframe oracle df text_col problems_ru T langs maxLabels hash
          contents wf = .ok res)
    (hfresh : ∀ n ∈ newColNames langs, df.hasCol n = false)
    (hnd : (newColNames langs).Nodup) :
    ∃ added : List (String × List Cell),
      res.dfOut.cols = df.cols ++ added ∧
      added.map Prod.fst = newColNames langs ∧
      (∀ p ∈ added, p.2.length = (df.getCol text_col).length) ∧
      added.length = 2 + 2 * langs.length := by
  simp only [classify_dataframe] at h
  cases hrun : runRows oracle problems_ru T langs maxLabels hash
      ⟨initCache contents, Usage.zero, 0⟩ (df.getCol text_col) with
  | error e => rw [hrun] at h; exact absurd h (by simp)
  | ok p =>
    rw [hrun] at h
    obtain ⟨st, outs⟩ := p
    simp only [Except.ok.injEq] at h
    have hlen : outs.length = (df.getCol text_col).length :=
      runRows_length oracle problems_ru T langs maxLabels hash _ _ _ _ hrun
    have hn₁ : df.hasCol "problem_russ_candidates" = false :=
      hfresh "problem_russ_candidates" (List.mem_cons_self _ _)
    have hn₂ : df.hasCol "problem_russ" = false :=
      hfresh "problem_russ" (List.mem_cons_of_mem _ (List.mem_cons_self _ _))
    rw [newColNames, List.nodup_cons] at hnd
    obtain ⟨hnm₁, hnd⟩ := hnd
    rw [List.nodup_cons] at hnd
    obtain ⟨hnm₂, hnd⟩ := hnd
    have hne : ("problem_russ_candidates" : String) ≠ "problem_russ" := by decide
    have h₂fresh :
        (df.setCol "problem_russ_candidates"
            (outs.map fun o => some o.candidates_ru)).hasCol "problem_russ" = false := by
      rw [hasCol_setCol_fresh _ _ _ _ hn₁, hn₂]
      simp
    have hrestfresh : ∀ n ∈ langColNames langs,
        ((df.setCol "problem_russ_candidates"
            (outs.map fun o => some o.candidates_ru)).setCol "problem_russ"
          (outs.map fun o => some o.first_ru)).hasCol n = false := by
      intro n hn
      rw [hasCol_setCol_fresh _ _ _ _ h₂fresh, hasCol_setCol_fresh _ _ _ _ hn₁]
      have h1 : df.hasCol n = false := hfresh n (by simp [newColNames, hn])
      have h2 : ("problem_russ_candidates" : String) ≠ n := by
        intro hc
        exact hnm₁ (by rw [hc]; exact List.mem_cons_of_mem _ hn)
      have h3 : ("problem_russ" : String) ≠ n := by
        intro hc
        exact hnm₂ (by rw [hc]; exact hn)
      simp [h1, h2, h3]
    obtain ⟨added', ha1, ha2, ha3⟩ := addLangCols_spec outs langs 0 _ hrestfresh hnd
    refine ⟨("problem_russ_candidates", outs.map fun o => some o.candidates_ru) ::
            ("problem_russ", outs.map fun o => some o.first_ru) :: added', ?_, ?_, ?_, ?_⟩
    · rw [← h]
      dsimp only
      rw [ha1, setCol_fresh _ _ _ h₂fresh, setCol_fresh _ _ _ hn₁]
      simp
    · rw [newColNames]
      simp [ha2]
    · intro p hp
      simp only [List.mem_cons] at hp
      rcases hp with rfl | rfl | hp
      · simp [hlen]
      · simp [hlen]
      · rw [ha3 p hp, hlen]
    · simp only [List.length_cons]
      have := congrArg List.length ha2
      rw [List.length_map, langColNames_length] at this
      omega

/-- C10 witness: a one-column, one-row dataframe with one target language
gains exactly the four fresh output columns, each with one value. -/
theorem classify_dataframe_frame_effect_witness :
    classify_dataframe (fun _ => ⟨.list [.num 1], ⟨1, 1, 2⟩⟩) ⟨[("text", [some "hi"])]⟩ "text"
        ["a"] (fun _ _ => "") ["en"] 3 (fun s => s) none false =
      .ok ⟨⟨[("text", [some "hi"]),
             ("problem_russ_candidates", [some "a"]),
             ("problem_russ", [some "a"]),
             ("problem_en_candidates", [some ""]),
             ("problem_en", [some ""])]⟩, ⟨1, 1, 2⟩, 1, some [("hi|a", [1])]⟩ ∧
    (∀ n ∈ newColNames ["en"], DataFrame.hasCol ⟨[("text", [some "hi"])]⟩ n = false) ∧
    (newColNames ["en"]).Nodup ∧
    ∃ added : List (String × List Cell),
      (ClassifyResult.mk
          ⟨[("text", [some "hi"]),
            ("problem_russ_candidates", [some "a"]),
            ("problem_russ", [some "a"]),
            ("problem_en_candidates", [some ""]),
            ("problem_en", [some ""])]⟩ ⟨1, 1, 2⟩ 1 (some [("hi|a", [1])])).dfOut.cols =
        (DataFrame.mk [("text", [some "hi"])]).cols ++ added ∧
      added.map Prod.fst = newColNames ["en"] ∧
      (∀ p ∈ added, p.2.length =
        ((DataFrame.mk [("text", [some "hi"])]).getCol "text").length) ∧
      added.length = 2 + 2 * (["en"] : List String).length :=
  ⟨rfl, by decide, by decide,
   classify_dataframe_frame_effect (fun _ => ⟨.list [.num 1], ⟨1, 1, 2⟩⟩)
     ⟨[("text", [some "hi"])]⟩ "text" ["a"] (fun _ _ => "") ["en"] 3 (fun s => s) none false
     ⟨⟨[("text", [some "hi"]),
        ("problem_russ_candidates", [some "a"]),
        ("problem_russ", [some "a"]),
        ("problem_en_candidates", [some ""]),
        ("problem_en", [some ""])]⟩, ⟨1, 1, 2⟩, 1, some [("hi|a", [1])]⟩
     rfl (by decide) (by decide)⟩

end ProblemReport
